import Mathlib

/-!
Verification of the ETL_Urban_Air_Quality pipeline: a shallow embedding of
`extract.py`, `load.py` and `run_pipeline.py`, with theorems about the
retrying fetch loop, the batched insert loop with per-batch retry, the
null-normalisation of staged cells, the raw-artifact writer and the
stage orchestrator.
-/

set_option autoImplicit false

namespace ETL

universe u

/-! ### Staged cells and the per-cell preparation in `load.py` -/

/-- A cell of the staged dataframe as pandas manipulates it: a number, a
string, the float missing-value marker NaN, or Python's `None` (an SQL
NULL once submitted to the sink). -/
inductive Cell
  | num (q : ℚ)
  | str (s : String)
  | nan
  | null
deriving DecidableEq, Repr

/-- `pd.notnull` on one cell: false exactly on the missing markers NaN and
`None`. -/
def notnull : Cell → Bool
  | .nan => false
  | .null => false
  | _ => true

/-- One cell of `df.where(pd.notnull(df), None)` (load.py line 81): keep the
cell where `pd.notnull` holds, otherwise replace it with `None`. -/
def whereNotnull (c : Cell) : Cell :=
  if notnull c then c else .null

/-- `pd.to_datetime(col, errors="coerce").astype(str)` on one cell of the
`time` column (load.py line 60). The datetime parser itself is pandas code,
abstracted as the `parse` argument: on success the parsed datetime is
stringified, on failure coercion yields `NaT`, whose `str()` is the literal
string `"NaT"`. -/
def coerceTimeToStr (parse : Cell → Option String) (c : Cell) : Cell :=
  match parse c with
  | some s => .str s
  | none => .str "NaT"

/-- The column renaming of load.py lines 72-78. -/
def renameCol (k : String) : String :=
  if k = "AQI" then "aqi_category"
  else if k = "severity" then "severity_score"
  else if k = "risk" then "risk_flag"
  else k

/-- A staged row: an association list from column name to cell. -/
abbrev Row : Type := List (String × Cell)

/-- The preparation one staged cell undergoes before insertion: the `time`
column is stringified first (inside `_read_staged_csv`, load.py line 60),
and afterwards every cell passes the NaN-to-None replacement of line 81. -/
def prepCell (parse : Cell → Option String) (k : String) (c : Cell) : Cell :=
  whereNotnull (if k = "time" then coerceTimeToStr parse c else c)

/-- A whole staged row after `_read_staged_csv`, the renaming and the
NaN-to-None replacement: exactly the record handed to the sink client. -/
def prepRow (parse : Cell → Option String) (row : Row) : Row :=
  row.map (fun kc => (renameCol kc.1, prepCell parse kc.1 kc.2))

/-! ### The batch insert loop of `load_to_supabase` -/

/-- Outcome of one `supabase.table(...).insert(batch).execute()` call:
a normal return, a normal return whose response object carries a truthy
`error` attribute, or a raised exception. -/
inductive InsertResult
  | ok
  | inlineError
  | exn
deriving DecidableEq, Repr

/-- What one batch's `while retries <= 2` loop (load.py lines 95-118) did:
how many insert calls it issued, how many seconds it slept (each retry wait
is `sleep(3)`), whether the batch's rows were counted into `inserted`,
whether the `failed after 2 retries` terminal error was reported, and
whether an inline-error warning (line 103) was reported. -/
structure BatchResult where
  calls : ℕ
  sleepSeconds : ℕ
  ok : Bool
  exhausted : Bool
  inlineErr : Bool
deriving DecidableEq, Repr

/-- The `while retries <= 2` loop with `r` the current value of `retries`;
`attempt a` is the sink's behaviour on the call made when `retries = a`.
The fuel only bounds the recursion: the loop increments `retries` on every
exception and exits in every other branch, so fuel 3 from `r = 0` is never
exhausted. -/
def batchLoopAux (attempt : ℕ → InsertResult) : ℕ → ℕ → BatchResult
  | _, 0 => ⟨0, 0, false, false, false⟩
  | r, fuel + 1 =>
    if r ≤ 2 then
      match attempt r with
      | .ok => ⟨1, 0, true, false, false⟩
      | .inlineError => ⟨1, 0, false, false, true⟩
      | .exn =>
        if r + 1 ≤ 2 then
          let rest := batchLoopAux attempt (r + 1) fuel
          ⟨rest.calls + 1, rest.sleepSeconds + 3, rest.ok, rest.exhausted, rest.inlineErr⟩
        else ⟨1, 0, false, true, false⟩
    else ⟨0, 0, false, false, false⟩

/-- One batch's retry loop, started with `retries = 0`. -/
def batchLoop (attempt : ℕ → InsertResult) : BatchResult :=
  batchLoopAux attempt 0 3

/-- `range(0, total, bs)` driving the batching loop (load.py line 90),
written with fuel; `total` units of fuel suffice whenever `bs ≥ 1`. -/
def pyRangeAux (total bs : ℕ) : ℕ → ℕ → List ℕ
  | _, 0 => []
  | i, fuel + 1 => if i < total then i :: pyRangeAux total bs (i + bs) fuel else []

/-- The start indices `0, bs, 2*bs, ...` of the batches. -/
def pyRange (total bs : ℕ) : List ℕ :=
  pyRangeAux total bs 0 total

/-- `records[i:i+bs]` (load.py line 91). -/
def batchSlice {α : Type u} (recs : List α) (bs i : ℕ) : List α :=
  (recs.drop i).take bs

/-- The observable outcome of one run of the batch loop over all batches:
the row totals, the batch numbers reported as terminally failed
(load.py line 117) and as inline-error warned (line 103), the full trace of
insert calls as (batch number, payload) pairs — retries repeat the same
payload — and the total seconds spent in retry sleeps. -/
structure LoadResult (α : Type u) where
  total_rows : ℕ
  inserted_rows : ℕ
  failed_batches : List ℕ
  warned_batches : List ℕ
  calls : List (ℕ × List α)
  sleepSeconds : ℕ
deriving DecidableEq, Repr

/-- The batching loop of load.py lines 87-121. Each iteration of the Python
loop touches no state of the other iterations except by appending to the
accumulators, so every field is the corresponding combination of per-batch
contributions; batch numbers are the 1-based `i // batch_size + 1` of
line 92. -/
def loadBatches {α : Type u} (sink : ℕ → ℕ → InsertResult) (recs : List α)
    (bs : ℕ) : LoadResult α :=
  let total := recs.length
  let idxs := pyRange total bs
  { total_rows := total
  , inserted_rows := (idxs.map (fun i =>
      if (batchLoop (sink (i / bs + 1))).ok then (batchSlice recs bs i).length else 0)).sum
  , failed_batches := idxs.filterMap (fun i =>
      if (batchLoop (sink (i / bs + 1))).exhausted then some (i / bs + 1) else none)
  , warned_batches := idxs.filterMap (fun i =>
      if (batchLoop (sink (i / bs + 1))).inlineErr then some (i / bs + 1) else none)
  , calls := idxs.flatMap (fun i =>
      List.replicate (batchLoop (sink (i / bs + 1))).calls (i / bs + 1, batchSlice recs bs i))
  , sleepSeconds := (idxs.map (fun i => (batchLoop (sink (i / bs + 1))).sleepSeconds)).sum }

/-- The staged CSV file as `load_to_supabase` can encounter it: absent from
the filesystem, present but without parseable content (zero bytes — pandas
`read_csv` raises `EmptyDataError` on it), or a parseable table whose data
rows may well be an empty list. -/
inductive StagedFile
  | absent
  | blank
  | table (rows : List Row)
deriving DecidableEq, Repr

/-- The two ways `load_to_supabase` can abort before inserting anything:
the explicit `FileNotFoundError` of load.py lines 66-67, and the
`EmptyDataError` escaping from `pd.read_csv` on a contentless file. -/
inductive LoadError
  | fileNotFound
  | emptyData
deriving DecidableEq, Repr

/-- `load_to_supabase` (load.py lines 65-121): existence check, CSV read
with time-column stringification, column renaming, NaN-to-None
normalisation, then the batch insert loop over the prepared records. -/
def loadToSupabase (parse : Cell → Option String) (sink : ℕ → ℕ → InsertResult)
    (file : StagedFile) (batch_size : ℕ) : Except LoadError (LoadResult Row) :=
  match file with
  | .absent => .error .fileNotFound
  | .blank => .error .emptyData
  | .table rows => .ok (loadBatches sink (rows.map (prepRow parse)) batch_size)

/-! ### The retrying fetch loop of `extract.py` -/

/-- A 200-response JSON payload, reduced to what the fetch loop inspects:
the value under the `"hourly"` key (a mapping metric name ↦ hourly series),
`none` when the key is absent. -/
structure Payload where
  hourly : Option (List (String × List ℚ))
deriving DecidableEq, Repr

/-- Python truthiness of `data.get("hourly")`: the key is present and its
mapping is nonempty. -/
def hourlyTruthy (p : Payload) : Bool :=
  match p.hourly with
  | none => false
  | some m => !m.isEmpty

/-- What one attempt's `requests.get` + `raise_for_status()` + `.json()`
does: raise a `RequestException`, or hand back a parsed payload. -/
inductive FetchAttempt
  | raise
  | response (p : Payload)
deriving DecidableEq, Repr

/-- What one call of `fetch_air_quality_data` did: attempts issued, seconds
slept between attempts (each wait is `time.sleep(2)`), and the returned
payload (`none` both on exhausted retries and on an empty response). -/
structure FetchTrace where
  attemptsMade : ℕ
  sleepSeconds : ℕ
  result : Option Payload
deriving DecidableEq, Repr

/-- The `for attempt in range(1, retries + 1)` loop of
`fetch_air_quality_data` (extract.py lines 38-57); `http a` is the network's
behaviour on attempt number `a`. Fuel `retries` from `attempt = 1` covers
every loop iteration. -/
def fetchAux (http : ℕ → FetchAttempt) (retries : ℕ) : ℕ → ℕ → FetchTrace
  | _, 0 => ⟨0, 0, none⟩
  | attempt, fuel + 1 =>
    if attempt ≤ retries then
      match http attempt with
      | .response p =>
        if hourlyTruthy p then ⟨1, 0, some p⟩ else ⟨1, 0, none⟩
      | .raise =>
        if attempt < retries then
          let rest := fetchAux http retries (attempt + 1) fuel
          ⟨rest.attemptsMade + 1, rest.sleepSeconds + 2, rest.result⟩
        else ⟨1, 0, none⟩
    else ⟨0, 0, none⟩

/-- `MAX_RETRIES` of extract.py line 26. -/
def MAX_RETRIES : ℕ := 3

/-- `fetch_air_quality_data(city, lat, lon, retries)`. -/
def fetchAirQuality (http : ℕ → FetchAttempt) (retries : ℕ) : FetchTrace :=
  fetchAux http retries 1 retries

/-! ### The raw-artifact writer and the per-city extract loop -/

/-- The raw artifact path pattern of `save_air_quality_data`
(extract.py line 64): `f"{city.lower()}_raw_{timestamp}.json"`. Lowercasing
is spelled out over the character list (the definition of `String.toLower`)
so that concrete paths evaluate. -/
def savePath (city timestamp : String) : String :=
  String.mk (city.data.map Char.toLower) ++ "_raw_" ++ timestamp ++ ".json"

/-- The raw directory as an association list path ↦ contents; a read finds
the most recent write to the path. -/
abbrev FileSys : Type := List (String × String)

/-- The contents currently stored at a path. -/
def fsRead (fs : FileSys) (p : String) : Option String :=
  fs.lookup p

/-- `save_air_quality_data` (extract.py lines 59-70): `open(filename, "w")`
followed by `json.dump` writes the payload at the timestamped path —
truncating whatever file may already sit there — and returns the path. -/
def saveAirQualityData (fs : FileSys) (city timestamp payload : String) :
    FileSys × String :=
  ((savePath city timestamp, payload) :: fs, savePath city timestamp)

/-- A configured city (extract.py lines 17-23). -/
structure City where
  name : String
  lat : ℚ
  lon : ℚ

/-- `extract_air_quality_data_for_cities` (extract.py lines 72-85): fetch
each city in order and, whenever a payload comes back, save it and record
the returned path in `saved_files`. `http c` is the network's behaviour for
city `c`; `ts c` is the wall-clock timestamp at the moment city `c` is
saved. -/
def extractCities (http : String → ℕ → FetchAttempt) (ts : String → String)
    (cities : List City) : List String :=
  cities.filterMap (fun c =>
    match (fetchAirQuality (http c.name) MAX_RETRIES).result with
    | some _ => some (savePath c.name (ts c.name))
    | none => none)

/-! ### The stage orchestrator of `run_pipeline.py` -/

/-- The four pipeline stages, in the order the orchestrator runs them. -/
inductive Stage
  | extract
  | transform
  | load
  | analyze
deriving DecidableEq, Repr

/-- What one orchestrator run did: which stage scripts were invoked, and
the orchestrator process's own exit code. -/
structure PipelineRun where
  invoked : List Stage
  exitCode : ℕ
deriving DecidableEq, Repr

/-- The `run_script` sequence of run_pipeline.py: each stage script runs in
order, and `run_script` calls `sys.exit(1)` — terminating the whole
orchestrator — as soon as a script's returncode is nonzero. `rc s` is the
exit code of stage `s`'s script. -/
def runStages (rc : Stage → ℤ) : List Stage → PipelineRun
  | [] => ⟨[], 0⟩
  | s :: rest =>
    if rc s ≠ 0 then ⟨[s], 1⟩
    else
      let r := runStages rc rest
      ⟨s :: r.invoked, r.exitCode⟩

/-- The stage order of run_pipeline.py lines 27-37. -/
def pipelineStages : List Stage :=
  [.extract, .transform, .load, .analyze]

/-- The orchestrator main of run_pipeline.py. -/
def runPipeline (rc : Stage → ℤ) : PipelineRun :=
  runStages rc pipelineStages

/-! ### Elementary facts about the batch retry loop -/

theorem batchLoop_first_ok {attempt : ℕ → InsertResult} (h : attempt 0 = .ok) :
    batchLoop attempt = ⟨1, 0, true, false, false⟩ := by
  simp [batchLoop, batchLoopAux, h]

theorem batchLoop_first_inline {attempt : ℕ → InsertResult}
    (h : attempt 0 = .inlineError) :
    batchLoop attempt = ⟨1, 0, false, false, true⟩ := by
  simp [batchLoop, batchLoopAux, h]

theorem batchLoop_all_exn {attempt : ℕ → InsertResult} (h : ∀ a, attempt a = .exn) :
    batchLoop attempt = ⟨3, 6, false, true, false⟩ := by
  simp [batchLoop, batchLoopAux, h 0, h 1, h 2]

/-! ### Closed form of the batching index range -/

theorem pyRangeAux_closed (total bs : ℕ) (hbs : 0 < bs) :
    ∀ fuel i, total - i ≤ fuel →
      pyRangeAux total bs i fuel
        = (List.range ((total - i + bs - 1) / bs)).map (fun k => i + k * bs) := by
  intro fuel
  induction fuel with
  | zero =>
    intro i hi
    have h0 : total - i = 0 := Nat.le_zero.mp hi
    have h1 : (total - i + bs - 1) / bs = 0 := by
      rw [h0]; exact Nat.div_eq_of_lt (by omega)
    simp [pyRangeAux, h1]
  | succ fuel ih =>
    intro i hi
    simp only [pyRangeAux]
    by_cases hlt : i < total
    · have hC : (total - i + bs - 1) / bs
          = ((total - (i + bs) + bs - 1) / bs) + 1 := by
        have ht1 : 1 ≤ total - i := by omega
        have h1 : total - (i + bs) = total - i - bs := by omega
        have h2 : total - i + bs - 1 = (total - i - 1) + bs := by omega
        rw [h1, h2, Nat.add_div_right _ hbs]
        by_cases hcase : total - i ≤ bs
        · have h3 : total - i - bs = 0 := by omega
          have h4 : (total - i - 1) / bs = 0 := Nat.div_eq_of_lt (by omega)
          have h5 : (0 + bs - 1) / bs = 0 := Nat.div_eq_of_lt (by omega)
          rw [h3, h5, h4]
        · have h3 : total - i - bs + bs - 1 = total - i - 1 := by omega
          rw [h3]
      rw [if_pos hlt, ih (i + bs) (by omega), hC, List.range_succ_eq_map]
      simp only [List.map_cons, List.map_map]
      congr 1
      · simp
      · refine List.map_congr_left (fun k _ => ?_)
        simp only [Function.comp_apply, Nat.succ_eq_add_one]
        ring
    · have h0 : total - i = 0 := by omega
      have h1 : (total - i + bs - 1) / bs = 0 := by
        rw [h0]; exact Nat.div_eq_of_lt (by omega)
      simp [if_neg hlt, h1]

theorem pyRange_closed (total bs : ℕ) (hbs : 0 < bs) :
    pyRange total bs = (List.range ((total + bs - 1) / bs)).map (fun k => k * bs) := by
  rw [pyRange, pyRangeAux_closed total bs hbs total 0 (by omega)]
  simp

/-! ### Ceiling-division arithmetic for the batch count -/

theorem ceil_bounds (N bs : ℕ) (hbs : 0 < bs) :
    N ≤ ((N + bs - 1) / bs) * bs ∧ ((N + bs - 1) / bs) * bs < N + bs := by
  have h1 := Nat.div_add_mod (N + bs - 1) bs
  have h2 := Nat.mod_lt (N + bs - 1) hbs
  have h3 : bs * ((N + bs - 1) / bs) = ((N + bs - 1) / bs) * bs := Nat.mul_comm _ _
  omega

theorem ceil_eq_div (N bs : ℕ) (hbs : 0 < bs) :
    (N + bs - 1) / bs = if N % bs = 0 then N / bs else N / bs + 1 := by
  have hdm := Nat.div_add_mod N bs
  by_cases h : N % bs = 0
  · rw [if_pos h]
    have e : N + bs - 1 = bs * (N / bs) + (bs - 1) := by omega
    rw [e, Nat.mul_add_div hbs, Nat.div_eq_of_lt (show bs - 1 < bs by omega)]
    omega
  · rw [if_neg h]
    have hm := Nat.mod_lt N hbs
    have e : N + bs - 1 = bs * (N / bs) + ((N % bs - 1) + bs) := by omega
    rw [e, Nat.mul_add_div hbs, Nat.add_div_right _ hbs,
      Nat.div_eq_of_lt (show N % bs - 1 < bs by omega)]

/-! ### The batching loop over the closed-form index range -/

theorem loadBatches_norm {α : Type u} (sink : ℕ → ℕ → InsertResult) (recs : List α)
    (bs : ℕ) (hbs : 0 < bs) :
    loadBatches sink recs bs =
      { total_rows := recs.length
      , inserted_rows := ((List.range ((recs.length + bs - 1) / bs)).map (fun j =>
          if (batchLoop (sink (j + 1))).ok then (batchSlice recs bs (j * bs)).length
          else 0)).sum
      , failed_batches := (List.range ((recs.length + bs - 1) / bs)).filterMap (fun j =>
          if (batchLoop (sink (j + 1))).exhausted then some (j + 1) else none)
      , warned_batches := (List.range ((recs.length + bs - 1) / bs)).filterMap (fun j =>
          if (batchLoop (sink (j + 1))).inlineErr then some (j + 1) else none)
      , calls := (List.range ((recs.length + bs - 1) / bs)).flatMap (fun j =>
          List.replicate (batchLoop (sink (j + 1))).calls (j + 1, batchSlice recs bs (j * bs)))
      , sleepSeconds := ((List.range ((recs.length + bs - 1) / bs)).map (fun j =>
          (batchLoop (sink (j + 1))).sleepSeconds)).sum } := by
  have hdiv : ∀ j : ℕ, j * bs / bs = j := fun j => Nat.mul_div_cancel j hbs
  simp only [loadBatches, pyRange_closed recs.length bs hbs, List.map_map,
    List.filterMap_map, List.flatMap_map, Function.comp_def, hdiv]

/-! ### List combinatorics for sums and single-survivor filters -/

theorem sum_range_zero_at (g : ℕ → ℕ) :
    ∀ n j0, j0 < n →
      ((List.range n).map (fun j => if j = j0 then 0 else g j)).sum + g j0
        = ((List.range n).map g).sum := by
  intro n
  induction n with
  | zero => intro j0 h; exact absurd h (Nat.not_lt_zero j0)
  | succ n ih =>
    intro j0 h
    rw [List.range_succ]
    simp only [List.map_append, List.sum_append, List.map_cons, List.sum_cons,
      List.map_nil, List.sum_nil]
    by_cases hj : j0 = n
    · subst hj
      have hcg : ∀ j ∈ List.range j0, (if j = j0 then 0 else g j) = g j := by
        intro j hjm
        have := List.mem_range.mp hjm
        rw [if_neg (by omega)]
      rw [List.map_congr_left hcg, if_pos rfl]
      omega
    · rw [if_neg (fun he => hj he.symm)]
      have := ih j0 (by omega)
      omega

theorem filterMap_range_single (f : ℕ → Option ℕ) :
    ∀ n j0, j0 < n → (∀ j, j < n → j ≠ j0 → f j = none) →
      (List.range n).filterMap f = (f j0).toList := by
  intro n
  induction n with
  | zero => intro j0 h; exact absurd h (Nat.not_lt_zero j0)
  | succ n ih =>
    intro j0 h hnone
    rw [List.range_succ, List.filterMap_append]
    by_cases hj : j0 = n
    · subst hj
      have hnil : (List.range j0).filterMap f = [] := by
        rw [List.filterMap_eq_nil_iff]
        intro j hjm
        exact hnone j (by have := List.mem_range.mp hjm; omega)
          (by have := List.mem_range.mp hjm; omega)
      rw [hnil]
      cases hf : f j0 <;> simp [List.filterMap_cons, hf]
    · have hfn : f n = none := hnone n (by omega) (fun he => hj he.symm)
      rw [ih j0 (by omega) (fun j hjn hne => hnone j (by omega) hne)]
      simp [List.filterMap_cons, hfn]

theorem flatMap_single_map {β : Type*} {γ : Type*} (l : List β) (f : β → γ) :
    (l.flatMap fun x => [f x]) = l.map f := by
  induction l with
  | nil => rfl
  | cons a t ih => simp [List.flatMap_cons, ih]

theorem slices_flatten {α : Type u} (l : List α) (bs : ℕ) :
    ∀ n, ((List.range n).map (fun j => batchSlice l bs (j * bs))).flatten
      = l.take (n * bs) := by
  intro n
  induction n with
  | zero => simp
  | succ n ih =>
    rw [List.range_succ]
    simp only [List.map_append, List.flatten_append, List.map_cons, List.map_nil,
      List.flatten_cons, List.flatten_nil, List.append_nil]
    rw [ih, Nat.succ_mul, List.take_add]
    rfl

theorem loadBatches_calls_mem {α : Type u} (sink : ℕ → ℕ → InsertResult)
    (recs : List α) (bs : ℕ) :
    ∀ c ∈ (loadBatches sink recs bs).calls, ∀ r ∈ c.2, r ∈ recs := by
  intro c hc r hr
  simp only [loadBatches] at hc
  rw [List.mem_flatMap] at hc
  obtain ⟨i, _, hci⟩ := hc
  have hce := List.eq_of_mem_replicate hci
  subst hce
  exact List.drop_subset _ _ (List.take_subset _ _ hr)

theorem last_slice_length {α : Type u} (recs : List α) (bs n : ℕ) (hbs : 0 < bs)
    (hN : 0 < recs.length) (hn : n = (recs.length + bs - 1) / bs) :
    (batchSlice recs bs ((n - 1) * bs)).length
      = if recs.length % bs = 0 then bs else recs.length % bs := by
  have hdm := Nat.div_add_mod recs.length bs
  have hml := Nat.mod_lt recs.length hbs
  have hceil := ceil_eq_div recs.length bs hbs
  have hlen : (batchSlice recs bs ((n - 1) * bs)).length
      = min bs (recs.length - (n - 1) * bs) := by
    simp [batchSlice, List.length_take, List.length_drop]
  rw [hlen]
  by_cases h : recs.length % bs = 0
  · rw [if_pos h]
    rw [hceil, if_pos h] at hn
    have hdvd : bs ≤ recs.length :=
      Nat.le_of_dvd hN (Nat.dvd_of_mod_eq_zero h)
    have hq : 0 < recs.length / bs := Nat.div_pos hdvd hbs
    obtain ⟨m, hm⟩ : ∃ m, recs.length / bs = m + 1 :=
      ⟨recs.length / bs - 1, by omega⟩
    rw [hm] at hn
    subst hn
    have e : (m + 1 - 1) * bs = m * bs := by simp
    rw [e]
    have h1 : bs * (m + 1) = bs * m + bs := by ring
    have h2 : m * bs = bs * m := Nat.mul_comm m bs
    have h3 : bs * (m + 1) = recs.length := by rw [← hm]; omega
    have h4 : recs.length - m * bs = bs := by omega
    rw [h4, Nat.min_self]
  · rw [if_neg h]
    rw [hceil, if_neg h] at hn
    subst hn
    have e : (recs.length / bs + 1 - 1) * bs = recs.length / bs * bs := by simp
    rw [e]
    have h2 : recs.length / bs * bs = bs * (recs.length / bs) :=
      Nat.mul_comm _ _
    have h3 : recs.length - recs.length / bs * bs = recs.length % bs := by omega
    rw [h3, min_eq_right (le_of_lt hml)]

/-! ### Facts about the fetch retry loop -/

theorem fetchAux_all_raise (http : ℕ → FetchAttempt) (retries : ℕ)
    (h : ∀ a, http a = .raise) :
    ∀ fuel attempt, 1 ≤ attempt → attempt ≤ retries → retries - attempt < fuel →
      fetchAux http retries attempt fuel
        = ⟨retries - attempt + 1, 2 * (retries - attempt), none⟩ := by
  intro fuel
  induction fuel with
  | zero => intro attempt _ _ hf; exact absurd hf (Nat.not_lt_zero _)
  | succ fuel ih =>
    intro attempt h1 h2 hf
    simp only [fetchAux, if_pos h2, h attempt]
    by_cases hlt : attempt < retries
    · rw [if_pos hlt, ih (attempt + 1) (by omega) (by omega) (by omega)]
      simp only [FetchTrace.mk.injEq]
      refine ⟨by omega, by omega, trivial⟩
    · have heq : attempt = retries := by omega
      subst heq
      rw [if_neg hlt]
      simp only [FetchTrace.mk.injEq]
      refine ⟨by omega, by omega, trivial⟩

theorem fetch_all_raise (http : ℕ → FetchAttempt) (retries : ℕ) (hr : 1 ≤ retries)
    (h : ∀ a, http a = .raise) :
    fetchAirQuality http retries = ⟨retries, 2 * (retries - 1), none⟩ := by
  have h1 : retries - 1 + 1 = retries := by omega
  rw [fetchAirQuality, fetchAux_all_raise http retries h retries 1 le_rfl hr (by omega), h1]

theorem extract_skips_failing (http : String → ℕ → FetchAttempt) (ts : String → String)
    (bad : String) (hbad : ∀ a, http bad a = .raise) :
    ∀ cities : List City,
      (∀ c ∈ cities, c.name ≠ bad →
        (fetchAirQuality (http c.name) MAX_RETRIES).result.isSome = true) →
      extractCities http ts cities
        = (cities.filter (fun c => c.name ≠ bad)).map
            (fun c => savePath c.name (ts c.name)) := by
  intro cities
  induction cities with
  | nil => intro _; rfl
  | cons c rest ih =>
    intro hc
    have ihr := ih (fun x hx h2 => hc x (List.mem_cons_of_mem c hx) h2)
    by_cases hcb : c.name = bad
    · have hres : (fetchAirQuality (http c.name) MAX_RETRIES).result = none := by
        rw [hcb, fetch_all_raise (http bad) MAX_RETRIES (by decide) hbad]
      simp only [extractCities, List.filterMap_cons, hres] at ihr ⊢
      rw [List.filter_cons, if_neg (by simp [hcb])]
      exact ihr
    · obtain ⟨p, hp⟩ := Option.isSome_iff_exists.mp
        (hc c (List.mem_cons_self c rest) hcb)
      simp only [extractCities, List.filterMap_cons, hp] at ihr ⊢
      rw [List.filter_cons, if_pos (by simp [hcb])]
      rw [List.map_cons]
      exact congrArg _ ihr

theorem sum_slice_lengths {α : Type u} (recs : List α) (bs n : ℕ)
    (hle : recs.length ≤ n * bs) :
    ((List.range n).map (fun j => (batchSlice recs bs (j * bs)).length)).sum
      = recs.length := by
  have hflat := congrArg List.length (slices_flatten recs bs n)
  rw [List.length_flatten, List.map_map, List.length_take, min_eq_right hle] at hflat
  exact hflat

/-! ### Claim C1 -/

/-- C1, counterexample: the claim says a batch whose insert call returns an
inline error object is retried up to 2 more times with 3-second delays,
exactly like a raised error. On a one-batch dataset whose sink always
returns an inline error object, the loop issues exactly 1 insert call and
sleeps 0 seconds, while the same dataset under an always-raising sink gets
3 calls and 6 seconds of sleep: the two error shapes are not treated
alike. -/
theorem c1_counterexample :
    (loadBatches (fun _ _ => InsertResult.inlineError) [0] 200).calls.length = 1 ∧
    (loadBatches (fun _ _ => InsertResult.inlineError) [0] 200).sleepSeconds = 0 ∧
    (loadBatches (fun _ _ => InsertResult.exn) [0] 200).calls.length = 3 ∧
    (loadBatches (fun _ _ => InsertResult.exn) [0] 200).sleepSeconds = 6 := by
  decide

/-- C1, amended: a batch whose insert call returns an inline error object
from the sink client is abandoned after exactly one attempt — no retry, no
delay; its rows are not counted as inserted and it is not recorded as
terminally failed, only an inline-error warning is reported. Raised errors
alone trigger the retry path. -/
theorem c1_inline_error_single_attempt (attempt : ℕ → InsertResult)
    (h : attempt 0 = .inlineError) :
    batchLoop attempt = ⟨1, 0, false, false, true⟩ :=
  batchLoop_first_inline h

/-- Witness for C1's amended theorem at a concrete always-inline-error
sink. -/
theorem c1_witness :
    (fun _ : ℕ => InsertResult.inlineError) 0 = InsertResult.inlineError ∧
    batchLoop (fun _ => InsertResult.inlineError) = ⟨1, 0, false, false, true⟩ :=
  ⟨rfl, c1_inline_error_single_attempt (fun _ => InsertResult.inlineError) rfl⟩

/-! ### Claim C2 -/

/-- C2: if the insert of batch `k` (1-based batch number, `k ≥ 1`) raises an
error on all 3 attempts while every other batch — in particular batch
`k + 1`, which exists because `k * bs < recs.length` — succeeds on its
first attempt, then `failed_batches` contains exactly the index `k` and
`inserted_rows` is the total row count minus exactly batch `k`'s rows
(so batch `k + 1`'s rows are included). -/
theorem c2_failed_batch_isolation {α : Type u} (sink : ℕ → ℕ → InsertResult)
    (recs : List α) (bs k : ℕ) (hbs : 0 < bs) (hk1 : 1 ≤ k)
    (hnext : k * bs < recs.length)
    (hfail : ∀ a, sink k a = .exn)
    (hok : ∀ j, j ≠ k → sink j 0 = .ok) :
    (loadBatches sink recs bs).failed_batches = [k] ∧
    (loadBatches sink recs bs).inserted_rows
      = recs.length - (batchSlice recs bs ((k - 1) * bs)).length := by
  have hbounds := ceil_bounds recs.length bs hbs
  have hkn : k - 1 < (recs.length + bs - 1) / bs := by
    have h1 : k * bs < ((recs.length + bs - 1) / bs) * bs :=
      lt_of_lt_of_le hnext hbounds.1
    have h2 : k < (recs.length + bs - 1) / bs := Nat.lt_of_mul_lt_mul_right h1
    omega
  rw [loadBatches_norm sink recs bs hbs]
  dsimp only
  constructor
  · rw [filterMap_range_single _ _ (k - 1) hkn (by
      intro j hjn hne
      rw [batchLoop_first_ok (hok (j + 1) (by omega))]
      rfl)]
    have hkk : k - 1 + 1 = k := by omega
    rw [hkk, batchLoop_all_exn hfail]
    rfl
  · have hcongr : ∀ j ∈ List.range ((recs.length + bs - 1) / bs),
        (if (batchLoop (sink (j + 1))).ok then (batchSlice recs bs (j * bs)).length
          else 0)
          = (if j = k - 1 then 0 else (batchSlice recs bs (j * bs)).length) := by
      intro j _
      by_cases hj : j = k - 1
      · rw [if_pos hj, show j + 1 = k by omega, batchLoop_all_exn hfail]
        rfl
      · rw [if_neg hj, batchLoop_first_ok (hok (j + 1) (by omega))]
        rfl
    rw [List.map_congr_left hcongr]
    have hsum : ((List.range ((recs.length + bs - 1) / bs)).map
          (fun j => if j = k - 1 then 0 else (batchSlice recs bs (j * bs)).length)).sum
          + (batchSlice recs bs ((k - 1) * bs)).length
        = ((List.range ((recs.length + bs - 1) / bs)).map
          (fun j => (batchSlice recs bs (j * bs)).length)).sum :=
      sum_range_zero_at (fun j => (batchSlice recs bs (j * bs)).length)
        ((recs.length + bs - 1) / bs) (k - 1) hkn
    rw [sum_slice_lengths recs bs _ hbounds.1] at hsum
    omega

/-- Witness for C2 at a 5-row dataset, batch size 2, with batch 1 raising
on every attempt and every other batch succeeding: inserted 3 of 5,
failed batches exactly [1]. -/
theorem c2_witness :
    0 < 2 ∧ 1 ≤ 1 ∧ 1 * 2 < ([0, 1, 2, 3, 4] : List ℕ).length ∧
    ((loadBatches (fun bn _ => if bn = 1 then InsertResult.exn else InsertResult.ok)
        [0, 1, 2, 3, 4] 2).failed_batches = [1] ∧
      (loadBatches (fun bn _ => if bn = 1 then InsertResult.exn else InsertResult.ok)
        [0, 1, 2, 3, 4] 2).inserted_rows
        = ([0, 1, 2, 3, 4] : List ℕ).length
          - (batchSlice ([0, 1, 2, 3, 4] : List ℕ) 2 ((1 - 1) * 2)).length) :=
  ⟨by decide, by decide, by decide,
    c2_failed_batch_isolation _ [0, 1, 2, 3, 4] 2 1 (by decide) (by decide)
      (by decide) (fun _ => rfl) (fun j hj => by simp [hj])⟩

/-! ### Claim C4 -/

/-- C4: when every insert call succeeds on its first attempt, the Loader
issues exactly `⌈N / B⌉ = (N + B - 1) / B` insert calls over the contiguous
slices of the record list in original order, each slice has at most `B`
rows, the last slice has `N mod B` rows (or `B` when `N mod B = 0`), all
`N` rows are counted as inserted, and no batch is recorded as failed. -/
theorem c4_batching_shape {α : Type u} (sink : ℕ → ℕ → InsertResult)
    (recs : List α) (bs n : ℕ) (hbs : 0 < bs) (hN : 0 < recs.length)
    (hn : n = (recs.length + bs - 1) / bs)
    (hok : ∀ j, sink j 0 = .ok) :
    (loadBatches sink recs bs).calls
        = (List.range n).map (fun j => (j + 1, batchSlice recs bs (j * bs))) ∧
    (loadBatches sink recs bs).calls.length = n ∧
    ((loadBatches sink recs bs).calls.map Prod.snd).flatten = recs ∧
    (∀ c ∈ (loadBatches sink recs bs).calls, c.2.length ≤ bs) ∧
    (loadBatches sink recs bs).calls.getLast?
        = some (n, batchSlice recs bs ((n - 1) * bs)) ∧
    (batchSlice recs bs ((n - 1) * bs)).length
        = (if recs.length % bs = 0 then bs else recs.length % bs) ∧
    (loadBatches sink recs bs).inserted_rows = recs.length ∧
    (loadBatches sink recs bs).failed_batches = [] := by
  have hbounds := ceil_bounds recs.length bs hbs
  rw [← hn] at hbounds
  have hbl : ∀ j : ℕ, batchLoop (sink (j + 1)) = ⟨1, 0, true, false, false⟩ :=
    fun j => batchLoop_first_ok (hok (j + 1))
  have hcalls : (loadBatches sink recs bs).calls
      = (List.range n).map (fun j => (j + 1, batchSlice recs bs (j * bs))) := by
    rw [loadBatches_norm sink recs bs hbs, ← hn]
    simp only [hbl, List.replicate_one]
    exact flatMap_single_map _ _
  have hn1 : 1 ≤ n := by
    by_contra hcon
    have h0 : n = 0 := by omega
    rw [h0, Nat.zero_mul] at hbounds
    omega
  refine ⟨hcalls, ?_, ?_, ?_, ?_, last_slice_length recs bs n hbs hN hn, ?_, ?_⟩
  · rw [hcalls, List.length_map, List.length_range]
  · rw [hcalls, List.map_map]
    show ((List.range n).map (fun j => batchSlice recs bs (j * bs))).flatten = recs
    rw [slices_flatten recs bs n]
    exact List.take_of_length_le hbounds.1
  · intro c hc
    rw [hcalls, List.mem_map] at hc
    obtain ⟨j, _, rfl⟩ := hc
    exact List.length_take_le _ _
  · obtain ⟨m, hm⟩ : ∃ m, n = m + 1 := ⟨n - 1, by omega⟩
    rw [hcalls, hm, List.range_succ, List.map_append, List.map_cons, List.map_nil,
      List.getLast?_concat]
    have h2 : m = n - 1 := by omega
    subst h2
    rw [show n - 1 + 1 = n from by omega]
  · rw [loadBatches_norm sink recs bs hbs, ← hn]
    have hone : ∀ j ∈ List.range n,
        (if (batchLoop (sink (j + 1))).ok then (batchSlice recs bs (j * bs)).length
          else 0) = (batchSlice recs bs (j * bs)).length := by
      intro j _
      rw [hbl j]
      rfl
    rw [List.map_congr_left hone]
    exact sum_slice_lengths recs bs n hbounds.1
  · rw [loadBatches_norm sink recs bs hbs, ← hn]
    refine List.filterMap_eq_nil_iff.mpr (fun j _ => ?_)
    rw [hbl j]
    rfl

/-- Witness for C4 at 5 rows and batch size 2: three insert calls with the
slices [0,1], [2,3], [4]. -/
theorem c4_witness :
    0 < 2 ∧ 0 < ([0, 1, 2, 3, 4] : List ℕ).length ∧ 3 = (5 + 2 - 1) / 2 ∧
    ((loadBatches (fun _ _ => InsertResult.ok) [0, 1, 2, 3, 4] 2).calls
        = (List.range 3).map (fun j => (j + 1, batchSlice ([0, 1, 2, 3, 4] : List ℕ) 2 (j * 2))) ∧
      (loadBatches (fun _ _ => InsertResult.ok) [0, 1, 2, 3, 4] 2).calls.length = 3 ∧
      (((loadBatches (fun _ _ => InsertResult.ok) [0, 1, 2, 3, 4] 2).calls.map
          Prod.snd).flatten = ([0, 1, 2, 3, 4] : List ℕ)) ∧
      (∀ c ∈ (loadBatches (fun _ _ => InsertResult.ok) [0, 1, 2, 3, 4] 2).calls,
          c.2.length ≤ 2) ∧
      (loadBatches (fun _ _ => InsertResult.ok) [0, 1, 2, 3, 4] 2).calls.getLast?
          = some (3, batchSlice ([0, 1, 2, 3, 4] : List ℕ) 2 ((3 - 1) * 2)) ∧
      (batchSlice ([0, 1, 2, 3, 4] : List ℕ) 2 ((3 - 1) * 2)).length
          = (if ([0, 1, 2, 3, 4] : List ℕ).length % 2 = 0 then 2
            else ([0, 1, 2, 3, 4] : List ℕ).length % 2) ∧
      (loadBatches (fun _ _ => InsertResult.ok) [0, 1, 2, 3, 4] 2).inserted_rows = 5 ∧
      (loadBatches (fun _ _ => InsertResult.ok) [0, 1, 2, 3, 4] 2).failed_batches = []) :=
  ⟨by decide, by decide, by decide,
    c4_batching_shape _ [0, 1, 2, 3, 4] 2 3 (by decide) (by decide) (by decide)
      (fun _ => rfl)⟩

/-! ### Claim C3 -/

/-- C3: for a city whose every HTTP attempt raises a transport or
HTTP-status error, the fetch loop makes exactly `retries` attempts
(default `MAX_RETRIES = 3`) with a 2-second wait between consecutive
attempts (`2 * (retries - 1)` seconds in total) and returns no payload;
and the per-city extract loop still saves exactly the other cities, in
order, provided their own fetches succeed. -/
theorem c3_fetch_exhausts_and_isolates (http : String → ℕ → FetchAttempt)
    (ts : String → String) (cities : List City) (bad : String) (retries : ℕ)
    (hr : 1 ≤ retries)
    (hbad : ∀ a, http bad a = .raise)
    (hothers : ∀ c ∈ cities, c.name ≠ bad →
      (fetchAirQuality (http c.name) MAX_RETRIES).result.isSome = true) :
    fetchAirQuality (http bad) retries = ⟨retries, 2 * (retries - 1), none⟩ ∧
    extractCities http ts cities
      = (cities.filter (fun c => c.name ≠ bad)).map
          (fun c => savePath c.name (ts c.name)) :=
  ⟨fetch_all_raise _ _ hr hbad, extract_skips_failing http ts bad hbad cities hothers⟩

/-- Witness for C3: Delhi's transport always fails, Mumbai's succeeds;
Delhi gets 3 attempts and 4 seconds of waits, and only Mumbai's artifact is
saved. -/
theorem c3_witness :
    (1 ≤ 3) ∧
    (fetchAirQuality
        ((fun c => if c = "Delhi" then (fun _ => FetchAttempt.raise)
          else (fun _ => FetchAttempt.response ⟨some [("pm10", [])]⟩)) "Delhi") 3
      = ⟨3, 2 * (3 - 1), none⟩ ∧
    extractCities
        (fun c => if c = "Delhi" then (fun _ => FetchAttempt.raise)
          else (fun _ => FetchAttempt.response ⟨some [("pm10", [])]⟩))
        (fun _ => "20250101_000000")
        [⟨"Delhi", 0, 0⟩, ⟨"Mumbai", 0, 0⟩]
      = (([⟨"Delhi", 0, 0⟩, ⟨"Mumbai", 0, 0⟩] : List City).filter
          (fun c => c.name ≠ "Delhi")).map
          (fun c => savePath c.name ((fun _ => "20250101_000000") c.name))) :=
  ⟨by decide,
    c3_fetch_exhausts_and_isolates
      (fun c => if c = "Delhi" then (fun _ => FetchAttempt.raise)
        else (fun _ => FetchAttempt.response ⟨some [("pm10", [])]⟩))
      (fun _ => "20250101_000000")
      [⟨"Delhi", 0, 0⟩, ⟨"Mumbai", 0, 0⟩] "Delhi" 3 (by decide) (fun _ => rfl)
      (by decide)⟩

/-! ### Claim C5 -/

/-- C5: a fetch whose first attempt returns an HTTP success whose payload
has no truthy `hourly` key (absent key or empty mapping) ends after exactly
one attempt with no sleep and no payload: the empty response is not
retried. -/
theorem c5_empty_payload_single_attempt (http : ℕ → FetchAttempt) (retries : ℕ)
    (p : Payload) (hr : 1 ≤ retries) (h1 : http 1 = .response p)
    (hp : hourlyTruthy p = false) :
    fetchAirQuality http retries = ⟨1, 0, none⟩ := by
  obtain ⟨r, rfl⟩ : ∃ r, retries = r + 1 := ⟨retries - 1, by omega⟩
  simp [fetchAirQuality, fetchAux, h1, hp]

/-- Witness for C5: a 200 response whose body has no `hourly` key, with the
default 3-attempt budget, gives up after a single attempt. -/
theorem c5_witness :
    (1 ≤ 3) ∧ hourlyTruthy ⟨none⟩ = false ∧
    fetchAirQuality (fun _ => FetchAttempt.response ⟨none⟩) 3 = ⟨1, 0, none⟩ :=
  ⟨by decide, rfl,
    c5_empty_payload_single_attempt (fun _ => FetchAttempt.response ⟨none⟩) 3
      ⟨none⟩ (by decide) rfl rfl⟩

/-! ### Claim C6 -/

/-- C6, counterexample: the claim says the load fails with a missing-input
error also when the staged file exists but contains no rows. On a parseable
staged file with a header and zero data rows, `load_to_supabase` raises
nothing: it proceeds and reports a load of 0 rows with no insert calls. -/
theorem c6_counterexample :
    loadToSupabase (fun _ => none) (fun _ _ => InsertResult.ok)
        (StagedFile.table []) 200
      = Except.ok ⟨0, 0, [], [], [], 0⟩ ∧
    loadToSupabase (fun _ => none) (fun _ _ => InsertResult.ok)
        (StagedFile.table []) 200 ≠ Except.error LoadError.fileNotFound ∧
    loadToSupabase (fun _ => none) (fun _ _ => InsertResult.ok)
        (StagedFile.table []) 200 ≠ Except.error LoadError.emptyData := by
  refine ⟨rfl, fun h => Except.noConfusion h, fun h => Except.noConfusion h⟩

/-- C6, amended: the load fails with the missing-input (file-not-found)
error exactly when the staged file does not exist; a file that exists but
has no parseable content fails with the CSV reader's distinct empty-data
error; a parseable file — even with zero data rows — proceeds to the
insert loop, a zero-row table yielding zero insert calls and 0 of 0 rows
inserted. -/
theorem c6_empty_file_behaviour (parse : Cell → Option String)
    (sink : ℕ → ℕ → InsertResult) (bs : ℕ) (rows : List Row) :
    loadToSupabase parse sink .absent bs = .error .fileNotFound ∧
    loadToSupabase parse sink .blank bs = .error .emptyData ∧
    loadToSupabase parse sink (.table rows) bs
      = .ok (loadBatches sink (rows.map (prepRow parse)) bs) ∧
    loadToSupabase parse sink (.table []) bs = .ok ⟨0, 0, [], [], [], 0⟩ :=
  ⟨rfl, rfl, rfl, rfl⟩

/-! ### Claim C7 -/

/-- C7: every record the batch loop submits to the sink is the prepared
image of a staged row, and preparing any non-time cell holding NaN or None
yields the explicit null marker — which is a different value from the
literal strings "NaN" and "None". -/
theorem c7_null_normalisation (parse : Cell → Option String)
    (sink : ℕ → ℕ → InsertResult) (rows : List Row) (bs : ℕ) :
    (∀ c ∈ (loadBatches sink (rows.map (prepRow parse)) bs).calls,
      ∀ r ∈ c.2, ∃ r0 ∈ rows, r = prepRow parse r0) ∧
    (∀ k v, k ≠ "time" → (v = Cell.nan ∨ v = Cell.null) →
      prepCell parse k v = Cell.null) ∧
    Cell.null ≠ Cell.str "NaN" ∧ Cell.null ≠ Cell.str "None" := by
  refine ⟨?_, ?_, by simp, by simp⟩
  · intro c hc r hr
    have hmem := loadBatches_calls_mem sink _ bs c hc r hr
    rw [List.mem_map] at hmem
    obtain ⟨r0, h0, he⟩ := hmem
    exact ⟨r0, h0, he.symm⟩
  · intro k v hk hv
    rcases hv with rfl | rfl <;> simp [prepCell, hk, whereNotnull, notnull]

/-- Witness for C7: a NaN in the numeric pm10 column is submitted as the
explicit null. -/
theorem c7_witness : prepCell (fun _ => none) "pm10" Cell.nan = Cell.null :=
  (c7_null_normalisation (fun _ => none) (fun _ _ => InsertResult.ok) [] 200).2.1
    "pm10" Cell.nan (by decide) (Or.inl rfl)

/-! ### Claim C8 -/

/-- C8: when the extract stage exits 0 and the transform stage exits
nonzero, the orchestrator invokes exactly extract and transform, never
load or analyze, and itself exits nonzero. -/
theorem c8_halt_on_transform_failure (rc : Stage → ℤ)
    (he : rc .extract = 0) (ht : rc .transform ≠ 0) :
    runPipeline rc = ⟨[.extract, .transform], 1⟩ ∧
    Stage.load ∉ (runPipeline rc).invoked ∧
    Stage.analyze ∉ (runPipeline rc).invoked ∧
    (runPipeline rc).exitCode ≠ 0 := by
  have hrun : runPipeline rc = ⟨[.extract, .transform], 1⟩ := by
    simp [runPipeline, pipelineStages, runStages, he, ht]
  refine ⟨hrun, ?_, ?_, ?_⟩ <;> rw [hrun] <;> decide

/-- Witness for C8: a stage-result function where only transform fails. -/
theorem c8_witness :
    ((fun s => if s = Stage.transform then (1 : ℤ) else 0) Stage.extract = 0) ∧
    ((fun s => if s = Stage.transform then (1 : ℤ) else 0) Stage.transform ≠ 0) ∧
    (runPipeline (fun s => if s = Stage.transform then (1 : ℤ) else 0)
        = ⟨[.extract, .transform], 1⟩ ∧
      Stage.load ∉ (runPipeline
        (fun s => if s = Stage.transform then (1 : ℤ) else 0)).invoked ∧
      Stage.analyze ∉ (runPipeline
        (fun s => if s = Stage.transform then (1 : ℤ) else 0)).invoked ∧
      (runPipeline (fun s => if s = Stage.transform then (1 : ℤ) else 0)).exitCode
        ≠ 0) :=
  ⟨by decide, by decide,
    c8_halt_on_transform_failure _ (by decide) (by decide)⟩

/-! ### Claim C9 -/

/-- C9, counterexample: the claim says a save never changes the contents of
any artifact that existed before the call. When the raw directory already
holds a file at the very path the writer derives (same city, same
second-resolution timestamp), `open(..., "w")` truncates it: the old
contents are replaced by the new payload. -/
theorem c9_counterexample :
    fsRead [("delhi_raw_20250101_120000.json", "old")]
        "delhi_raw_20250101_120000.json" = some "old" ∧
    fsRead (saveAirQualityData [("delhi_raw_20250101_120000.json", "old")]
        "Delhi" "20250101_120000" "new").1
        "delhi_raw_20250101_120000.json" = some "new" ∧
    ("old" : String) ≠ "new" := by
  refine ⟨rfl, ?_, by decide⟩
  decide

/-- C9, amended: the writer writes the payload to the path
`{city_lowercase}_raw_{timestamp}.json` and returns that path; every
pre-existing artifact at any other path keeps its contents — only a
pre-existing file at exactly the colliding path (same city and same
second-resolution timestamp) is overwritten. -/
theorem c9_overwrite_only_same_path (fs : FileSys)
    (city timestamp payload p : String) (hp : p ≠ savePath city timestamp) :
    (saveAirQualityData fs city timestamp payload).2 = savePath city timestamp ∧
    fsRead (saveAirQualityData fs city timestamp payload).1
        (savePath city timestamp) = some payload ∧
    fsRead (saveAirQualityData fs city timestamp payload).1 p = fsRead fs p := by
  refine ⟨rfl, ?_, ?_⟩
  · simp [fsRead, saveAirQualityData, List.lookup]
  · simp [fsRead, saveAirQualityData, List.lookup, beq_eq_false_iff_ne.mpr hp]

/-- Witness for C9's amended theorem: saving Delhi's payload leaves an
unrelated artifact path untouched. -/
theorem c9_witness :
    ("mumbai_raw_20250101_120000.json" ≠ savePath "Delhi" "20250101_120000") ∧
    ((saveAirQualityData [] "Delhi" "20250101_120000" "body").2
        = savePath "Delhi" "20250101_120000" ∧
      fsRead (saveAirQualityData [] "Delhi" "20250101_120000" "body").1
        (savePath "Delhi" "20250101_120000") = some "body" ∧
      fsRead (saveAirQualityData [] "Delhi" "20250101_120000" "body").1
        "mumbai_raw_20250101_120000.json"
        = fsRead [] "mumbai_raw_20250101_120000.json") :=
  ⟨by decide,
    c9_overwrite_only_same_path [] "Delhi" "20250101_120000" "body"
      "mumbai_raw_20250101_120000.json" (by decide)⟩

/-! ### Claim C10 -/

/-- C10: a time cell that fails datetime parsing is stringified to the
literal "NaT" before the NaN-to-None replacement runs; the string "NaT"
is not a null marker, so the sink receives the literal string "NaT", not a
null. -/
theorem c10_nat_string_bypasses_null (parse : Cell → Option String) (c : Cell)
    (h : parse c = none) :
    prepCell parse "time" c = Cell.str "NaT" ∧
    whereNotnull (Cell.str "NaT") = Cell.str "NaT" ∧
    Cell.str "NaT" ≠ Cell.null := by
  refine ⟨?_, rfl, by simp⟩
  simp [prepCell, coerceTimeToStr, h, whereNotnull, notnull]

/-- Witness for C10: an unparseable time cell comes out as the string
"NaT". -/
theorem c10_witness :
    ((fun _ : Cell => (none : Option String)) (Cell.str "yesterday") = none) ∧
    (prepCell (fun _ => none) "time" (Cell.str "yesterday") = Cell.str "NaT" ∧
      whereNotnull (Cell.str "NaT") = Cell.str "NaT" ∧
      Cell.str "NaT" ≠ Cell.null) :=
  ⟨rfl, c10_nat_string_bypasses_null (fun _ => none) (Cell.str "yesterday") rfl⟩

end ETL
